import Mathlib

/-!
Shallow embedding of the Jura BLE coffee-machine driver core
(`custom_components/jura/core/client.py` and
`custom_components/jura/core/device.py`), together with theorems checking
the natural-language specification against it.

Python `dict[str, int]` values are modelled as insertion-ordered
association lists (`List (String × Nat)`) with overwrite-on-existing-key
semantics (`dictInsert`).  Python byte strings are `List Nat`.  Exceptions
(`StopIteration`, `TypeError`, `IndexError`, `ValueError`) are modelled by
`Except Unit`; an `.error ()` result means the Python call raises and the
object state is left as it was (in CPython the raising statements occur
before any field assignment).  Wall-clock time (`time.time()`) is modelled
as an `Int`-valued instant passed explicitly.
-/

namespace Jura

instance {ε α : Type} [DecidableEq ε] [DecidableEq α] :
    DecidableEq (Except ε α) := fun a b =>
  match a, b with
  | .error e1, .error e2 =>
    if h : e1 = e2 then isTrue (by rw [h])
    else isFalse (fun hc => h (Except.error.inj hc))
  | .error _, .ok _ => isFalse (fun hc => Except.noConfusion hc)
  | .ok _, .error _ => isFalse (fun hc => Except.noConfusion hc)
  | .ok a1, .ok a2 =>
    if h : a1 = a2 then isTrue (by rw [h])
    else isFalse (fun hc => h (Except.ok.inj hc))

/-- Python dict assignment `m[k] = v`: overwrites the value in place when
the key is present (keeping its position), otherwise appends the new pair. -/
def dictInsert (m : List (String × Nat)) (k : String) (v : Nat) :
    List (String × Nat) :=
  if m.any (fun p => p.1 == k) then
    m.map (fun p => if p.1 == k then (k, v) else p)
  else
    m ++ [(k, v)]

/-! ## Cipher (`core/encryption.py`) -/

/-- Modelled from the spec: `core/encryption.py` (the `encdec` function used
by `client.py`) is not part of the given sources.  Per the spec it is a
"byte-wise XOR-based stream derived from `key`" — an "XOR-rolling-key"
scheme — so each byte at position `i` is XORed with the rolling key byte
`(key + i) % 256`.  `encdecAux` carries the byte position. -/
def encdecAux (key : Nat) : Nat → List Nat → List Nat
  | _, [] => []
  | i, b :: rest => (b ^^^ ((key + i) % 256)) :: encdecAux key (i + 1) rest

/-- Modelled from the spec: `encryption.encdec(data, key)`, the cipher
transform applied identically for encryption and decryption. -/
def encdec (data : List Nat) (key : Nat) : List Nat :=
  encdecAux key 0 data

/-! ## Connection manager (`core/client.py`) -/

/-- `ACTIVE_TIME = 120` (client.py line 14). -/
def ACTIVE_TIME : Int := 120

/-- `COMMAND_TIME = 15` (client.py line 15). -/
def COMMAND_TIME : Int := 15

/-- The mutable fields of `Client` touched by `ping`/`send` and the
heartbeat loop body.  `ping_task : Bool` models whether the `_ping_loop`
task object exists; `ping_future : Bool` models whether a pending (not yet
cancelled) heartbeat sleep future exists; `send_data = none` models Python
`None`. -/
structure ClientState where
  ping_time : Int
  ping_task : Bool
  ping_future : Bool
  send_data : Option (List Nat)
  send_time : Int
  send_uuid : String
deriving Repr, DecidableEq

/-- `Client.ping` (client.py lines 50-54): sets
`ping_time = time.time() + ACTIVE_TIME` and creates the `_ping_loop` task
when none is running. -/
def Client.ping (now : Int) (s : ClientState) : ClientState :=
  { s with ping_time := now + ACTIVE_TIME, ping_task := true }

/-- `Client.send` (client.py lines 64-75): latches the one-shot payload
(`send_time = time.time() + COMMAND_TIME`, overwriting any previous one),
refreshes the keep-alive via `ping`, and cancels the pending heartbeat
sleep future if there is one.  The returned `Bool` records whether a
pending sleep future was cancelled (interrupting an in-progress 9-second
heartbeat wait). -/
def Client.send (now : Int) (data : List Nat) (uuid : String)
    (s : ClientState) : ClientState × Bool :=
  let s1 := { s with send_time := now + COMMAND_TIME,
                     send_data := some data, send_uuid := uuid }
  let s2 := Client.ping now s1
  if s2.ping_future then ({ s2 with ping_future := false }, true)
  else (s2, false)

/-- Python truthiness of the `send_data` field (`if self.send_data:`):
`None` and the empty byte string are falsy. -/
def truthyBytes : Option (List Nat) → Bool
  | none => false
  | some l => !l.isEmpty

/-- One pass of the `send_data` block at the top of the heartbeat loop body
(client.py lines 88-95): if a payload is latched, it is written iff
`time.time() < self.send_time`, and the slot is cleared either way.
Returns (payload written?, new state). -/
def heartbeatTick (now : Int) (s : ClientState) : Bool × ClientState :=
  if truthyBytes s.send_data then
    (decide (now < s.send_time), { s with send_data := none })
  else
    (false, s)

/-! ## Machine state (`core/device.py`) -/

/-- One attribute definition of a product, i.e. one of the XML sub-dicts
`self.product[attr.upper()]` consulted by `Device.command` /
`Device.select_option`.  The source stores strings and parses them on use;
the model stores the parsed numbers:
`hasValue`/`value` model the optional numeric field (`"@Value" in attribute`
and `int(attribute["@Value"])`), `default` models
`int(attribute["@Default"], 16)` of an enumerated attribute, `step` models
`int(attribute.get("@Step", 0))`, `argument` models
`int(attribute["@Argument"][1:])`, and `options` models the `ITEM` list as
pairs of `i["@Name"]` and `int(i["@Value"], 16)`. -/
structure ProdAttribute where
  hasValue : Bool
  value : Nat
  default : Nat
  step : Nat
  argument : Nat
  options : List (String × Nat)
deriving Repr, DecidableEq

/-- One entry of the catalog's product list: `p["@Name"]`,
`int(p["@Code"], 16)`, the `p.get("@Active") != "false"` flag, and the
attribute sub-dicts keyed by attribute name (upper-cased in the source;
the model keys them by the lower-case names that `Device.command` and
`Device.select_option` look up). -/
structure Product where
  name : String
  code : Nat
  active : Bool
  attrs : List (String × ProdAttribute)
deriving Repr, DecidableEq

/-- `SELECTS` (device.py lines 15-20). -/
def SELECTS : List String :=
  ["product", "grinder_ratio", "coffee_strength", "temperature"]

/-- `NUMBERS` (device.py lines 22-28). -/
def NUMBERS : List String :=
  ["water_amount", "milk_amount", "milk_foam_amount", "bypass", "milk_break"]

/-- The `Device` fields mutated by product selection and attribute
overrides.  `Device.__init__` sets `self.product = None` and
`self.values = None` (device.py lines 70-71): `values` is an `Option`, not
an empty dict. -/
structure DevState where
  product : Option Product
  values : Option (List (String × Nat))
deriving Repr, DecidableEq

/-- The state right after `Device.__init__`: `self.product = None`,
`self.values = None`. -/
def initDevState : DevState := ⟨none, none⟩

/-- `Device.select_product` (device.py lines 161-169).
`next(i for i in self.products if i["@Name"] == product)` raises
`StopIteration` when no product matches (modelled `.error ()`, fields
unchanged since the assignment never executes); otherwise the product is
set, `self.values = {}`, and every handler in `self.updates_product` is
invoked in order (the second component of the result lists the invoked
handlers; handlers are abstract tokens).  The preceding
`self.client.ping()` call only touches `ClientState` and is modelled
separately by `Client.ping`. -/
def select_product (products : List Product) (name : String)
    (st : DevState) (handlers : List Nat) :
    Except Unit (DevState × List Nat) :=
  match products.find? (fun p => p.name == name) with
  | none => .error ()
  | some p => .ok ({ st with product := some p, values := some [] }, handlers)

/-- `Device.set_value` (device.py lines 156-159): `self.values[attr] = value`.
When `self.values` is `None` (no product ever selected) the item assignment
raises `TypeError` (modelled `.error ()`); the `self.client.ping()` call
that precedes it is modelled separately by `Client.ping`. -/
def set_value (st : DevState) (attr : String) (v : Nat) :
    Except Unit DevState :=
  match st.values with
  | none => .error ()
  | some m => .ok { st with values := some (dictInsert m attr v) }

/-- `Device.select_option` (device.py lines 144-154).  For
`attr == "product"` it delegates to `select_product`.  Otherwise
`self.product and self.product.get(attr.upper())` short-circuits to a falsy
value when no product is selected or the product lacks the attribute, and
the method returns `None` leaving the state unchanged; when the attribute
exists, `next(...)` over its `ITEM` list raises `StopIteration` for an
unknown option name (modelled `.error ()`), and otherwise
`set_value(attr, int(value, 16))` runs. -/
def select_option (products : List Product) (st : DevState)
    (handlers : List Nat) (attr optionName : String) :
    Except Unit (DevState × List Nat) :=
  if attr == "product" then
    select_product products optionName st handlers
  else
    match st.product with
    | none => .ok (st, [])
    | some p =>
      match p.attrs.lookup attr with
      | none => .ok (st, [])
      | some a =>
        match a.options.lookup optionName with
        | none => .error ()
        | some v =>
          match set_value st attr v with
          | .error e => .error e
          | .ok st1 => .ok (st1, [])

/-- The body of the `for attr in SELECTS + NUMBERS` loop of `Device.command`
(device.py lines 181-200), lifted over `Except` so earlier exceptions
propagate.  The attribute's value is the user override when present, else
the numeric `@Value` default, else the enumerated `@Default`; a nonzero
`@Step` divides it (`int(value / step)` — value and step are nonnegative
machine-range integers, so this is truncating division); finally
`data[pos] = value` raises (`IndexError`/`ValueError`) unless
`pos < len(data)` and `value ≤ 255`. -/
def writeAttr (values : List (String × Nat)) (p : Product)
    (acc : Except Unit (List Nat)) (attr : String) :
    Except Unit (List Nat) :=
  match acc with
  | .error e => .error e
  | .ok data =>
    match p.attrs.lookup attr with
    | none => .ok data
    | some a =>
      let v0 : Nat :=
        (values.lookup attr).getD (if a.hasValue then a.value else a.default)
      let v1 : Nat := if a.step ≠ 0 then v0 / a.step else v0
      if a.argument < data.length ∧ v1 ≤ 255 then
        .ok (data.set a.argument v1)
      else
        .error ()

/-- `Device.command` (device.py lines 175-209): an 18-byte zeroed buffer,
`data[1] = int(self.product["@Code"], 16)` (raising unless the code fits a
byte), the attribute loop over `SELECTS + NUMBERS`, and finally
`data[17] = self.client.key`. -/
def command (p : Product) (values : List (String × Nat)) (key : Nat) :
    Except Unit (List Nat) :=
  if p.code ≤ 255 then
    match (SELECTS ++ NUMBERS).foldl (writeAttr values p)
        (.ok ((List.replicate 18 0).set 1 p.code)) with
    | .error e => .error e
    | .ok data =>
      if key ≤ 255 then .ok (data.set 17 key) else .error ()
  else
    .error ()

/-! ## Statistics (`Device.read_statistics`, device.py lines 216-333) -/

/-- The last-known statistics snapshot (`self.statistics`). -/
structure Statistics where
  total_products : Option Nat
  product_counts : List (String × Nat)
  maintenance_counters : List (String × Nat)
  maintenance_percents : List (String × Nat)
deriving Repr, DecidableEq

/-- The snapshot installed by `Device.__init__` (device.py line 76). -/
def initStatistics : Statistics := ⟨none, [], [], []⟩

/-- Device.py lines 230-237: every complete 3-byte chunk of the decrypted
product-counter page, big-endian, with `0xFFFF` mapped to `0`; a trailing
chunk shorter than 3 bytes is dropped (`if i + 3 <= len(decrypted_data)`). -/
def productCountsArray : List Nat → List Nat
  | a :: b :: c :: rest =>
    (if a * 65536 + b * 256 + c = 0xFFFF then 0
     else a * 65536 + b * 256 + c) :: productCountsArray rest
  | _ => []

/-- Device.py line 283: 2-byte big-endian chunks of the maintenance-counter
page (`int("".join(["%02x" % d for d in decrypted_data[i:i+2]]), 16)`); a
trailing single byte forms its own chunk. -/
def chunks2 : List Nat → List Nat
  | a :: b :: rest => (a * 256 + b) :: chunks2 rest
  | [a] => [a]
  | [] => []

/-- Device.py lines 257-269: walk `enumerate(product_counts_array)`,
skip index 0 (the total), and record the count under the name of the first
product whose `int(p["@Code"], 16)` equals the index. -/
def productCountsFrom (products : List Product) :
    Nat → List Nat → List (String × Nat) → List (String × Nat)
  | _, [], acc => acc
  | i, c :: cs, acc =>
    let acc1 :=
      if i = 0 then acc
      else
        match products.find? (fun p => p.code == i) with
        | some p => dictInsert acc p.name c
        | none => acc
    productCountsFrom products (i + 1) cs acc1

/-- Device.py line 284: `dict(zip(names, vals))` — truncating to the
shorter list, later duplicate keys overwriting earlier values in place. -/
def dictFromZip (names : List String) (vals : List Nat) :
    List (String × Nat) :=
  (names.zip vals).foldl (fun acc p => dictInsert acc p.1 p.2) []

/-- Device.py lines 302-313: the
`for i in range(len(self.maintenance_percents))` loop.
`decrypted_data[i]` raises `IndexError` when the page is shorter than the
label list (`.error ()`); a byte strictly between 100 and 255 aborts the
whole update (`.ok none`); a byte `≤ 100` stores `100 - value`, the byte
`255` stores `100`, and (unreachable for genuine bytes) anything larger
stores nothing. -/
def percentsLoop : List String → List Nat → List (String × Nat) →
    Except Unit (Option (List (String × Nat)))
  | [], _, acc => .ok (some acc)
  | _ :: _, [], _ => .error ()
  | n :: ns, v :: vs, acc =>
    if 100 < v ∧ v < 255 then .ok none
    else
      percentsLoop ns vs
        (if v ≤ 100 then dictInsert acc n (100 - v)
         else if v = 255 then dictInsert acc n 100
         else acc)

/-- `Device.read_statistics` (device.py lines 216-333) as a pure function of
the prior snapshot, the catalog data, and the results `r1`, `r2`, `r3` of
the three `client.read_statistics_data` polling reads (`none` = the poll
timed out / returned no data).  The result pairs the post-call
`self.statistics` with a flag telling whether the snapshot was replaced;
`.error ()` models the unhandled `TypeError` raised when the first page has
no complete 3-byte chunk (`total_count` is `None` and `None > 1000000` is
a `TypeError`) and the `IndexError` of the percents loop — in those runs
the method raises before the snapshot assignment. -/
def read_statistics (prior : Statistics) (products : List Product)
    (mcNames mpNames : List String) (r1 r2 r3 : Option (List Nat)) :
    Except Unit (Statistics × Bool) :=
  match r1 with
  | none => .ok (prior, false)
  | some d1 =>
    match (productCountsArray d1).head? with
    | none => .error ()
    | some total_count =>
      if total_count = 0 ∨ total_count > 1000000 then .ok (prior, false)
      else
        let product_counts :=
          productCountsFrom products 0 (productCountsArray d1) []
        match r2 with
        | none => .ok (prior, false)
        | some d2 =>
          let arr2 := chunks2 d2
          if arr2.sum > total_count * 5 then .ok (prior, false)
          else
            match r3 with
            | none => .ok (prior, false)
            | some d3 =>
              match percentsLoop mpNames d3 [] with
              | .error e => .error e
              | .ok none => .ok (prior, false)
              | .ok (some maintenance_percents) =>
                .ok ({ total_products := some total_count,
                       product_counts := product_counts,
                       maintenance_counters := dictFromZip mcNames arr2,
                       maintenance_percents := maintenance_percents }, true)

/-! ## Alerts (`Device.read_alerts`, device.py lines 342-368) -/

/-- Device.py line 357: `self.alerts.get(i, f"unknown alert {i}")`. -/
def alertLabel (alerts : List (Nat × String)) (i : Nat) : String :=
  match alerts.lookup i with
  | some n => n
  | none => "unknown alert " ++ toString i

/-- The bit test of device.py lines 354-356:
`offset_abs = (i >> 3) + 1`, `offset_byte = 7 - (i & 0b111)`, and the byte
test `(data[offset_abs] >> offset_byte) & 0b1` (truthy iff equal to 1). -/
def bitActive (data : List Nat) (i : Nat) : Bool :=
  (data.getD ((i >>> 3) + 1) 0 >>> (7 - (i &&& 7))) &&& 1 == 1

/-- The alert-decoding loop of `Device.read_alerts` (device.py lines
352-358): for `i in range((len(data) - 1) * 8)`, add
`i -> self.alerts.get(i, f"unknown alert {i}")` when the bit is set.  The
loop indices are strictly increasing, so plain appending realises the dict. -/
def decodeAlerts (alerts : List (Nat × String)) (data : List Nat) :
    List (Nat × String) :=
  (List.range ((data.length - 1) * 8)).foldl
    (fun acc i => if bitActive data i then acc ++ [(i, alertLabel alerts i)]
                  else acc) []

/-- `Device.read_alerts` as a pure function of the catalog alert table, the
prior `self.active_alerts`, and the result of `client.read_machine_status`:
a failed read returns the prior mapping untouched, a successful one
replaces it with the decoded bits. -/
def read_alerts (alerts : List (Nat × String))
    (prior : List (Nat × String)) (r : Option (List Nat)) :
    List (Nat × String) :=
  match r with
  | none => prior
  | some data => decodeAlerts alerts data

/-! ## Catalog resolution (`get_machine`, device.py lines 379-391) -/

/-- `int.from_bytes(bytes, "little")` for an arbitrary-length byte string
(the empty string gives 0). -/
def intFromBytesLE : List Nat → Nat
  | [] => 0
  | b :: rest => b + 256 * intFromBytesLE rest

/-- Byte-string `startswith` on character lists: `leadsWith pre s` is true
iff `pre` occurs at the start of `s`. -/
def leadsWith : List Char → List Char → Bool
  | [], _ => true
  | _ :: _, [] => false
  | a :: as, b :: bs => a == b && leadsWith as bs

/-- Python `line.startswith(prefixBytes)` over the model's strings. -/
def strStartsWith (line pre : String) : Bool :=
  leadsWith pre.toList line.toList

/-- `model_id = int.from_bytes(adv[4:6], "little")` (device.py line 380);
Python slicing truncates when `adv` is short. -/
def modelIdOf (adv : List Nat) : Nat :=
  intFromBytesLE ((adv.drop 4).take 2)

/-- The observable outcome of `get_machine`'s model-id gate: `EmptyModel`
raised, `UnsupportedModel model_id` raised, or the first matching line of
the bundled `JOE_MACHINES.TXT` index handed on to the XML stage. -/
inductive GetMachineResult where
  | emptyModel : GetMachineResult
  | unsupportedModel : Nat → GetMachineResult
  | ok : String → GetMachineResult
deriving Repr, DecidableEq

/-- `get_machine` (device.py lines 379-391) up to the index lookup, with the
bundled `JOE_MACHINES.TXT` lines supplied as `index` (the archive is
external data).  A zero model id raises `EmptyModel`;
`next(i for i in txt.readlines() if i.startswith(prefix))` with
`prefix = str(model_id).encode()` raises `StopIteration`, mapped to
`UnsupportedModel(model_id)`, when no line starts with the decimal model
id. -/
def get_machine (index : List String) (adv : List Nat) : GetMachineResult :=
  let model_id := modelIdOf adv
  if model_id = 0 then .emptyModel
  else
    match index.find? (fun line => strStartsWith line (toString model_id)) with
    | none => .unsupportedModel model_id
    | some line => .ok line

/-! ## Auxiliary notions used by the theorems -/

/-- Two byte buffers agree everywhere except possibly at offset `off`
(and have the same length). -/
def EqExcept (off : Nat) (d1 d2 : List Nat) : Prop :=
  d1.length = d2.length ∧ ∀ i, i ≠ off → d1.getD i 0 = d2.getD i 0

/-- The one-product catalog of the end-to-end scenario: product
"Espresso", code `0x01`, active, no extra attributes. -/
def espressoProduct : Product := ⟨"Espresso", 1, true, []⟩

/-- A small concrete product with a single numeric attribute
(`@Value 200`, `@Step 10`, `@Argument 4`), used to witness the
override-locality theorem on a concrete input. -/
def wateryProduct : Product :=
  ⟨"Watery", 1, true, [("water_amount", ⟨true, 200, 0, 10, 4, []⟩)]⟩

/-! ## Helper lemmas -/

lemma encdecAux_encdecAux (key : Nat) :
    ∀ (l : List Nat) (i : Nat), encdecAux key i (encdecAux key i l) = l := by
  intro l
  induction l with
  | nil => intro i; rfl
  | cons b rest ih =>
    intro i
    simp [encdecAux, ih, Nat.xor_assoc]

/-! ## Claim theorems -/

/-- C8: the cipher transform is an involution: for every byte sequence `x`
and every key `k`, `encdec (encdec x k) k = x` (the transform is a pure
function with no failure mode). -/
theorem cipher_encdec_involution (x : List Nat) (k : Nat) :
    encdec (encdec x k) k = x :=
  encdecAux_encdecAux k x 0

/-- C4 counterexample: the grace window of a latched payload is 15 seconds
(`COMMAND_TIME = 15`), not 10.  With a payload latched by `send` at time 0,
the heartbeat tick at time 12 — more than 10 seconds later — still writes
the payload. -/
theorem send_grace_window_counterexample :
    (heartbeatTick 12
        (Client.send 0 [1, 2] "u" ⟨0, false, false, none, 0, "x"⟩).1).1
        = true
    ∧ ¬ ((12 : Int) ≤ 0 + 10) := by
  constructor
  · rfl
  · decide

/-- C4 amended: a payload latched by `send` is given a 15-second grace
window (`COMMAND_TIME = 15`): the heartbeat loop writes it iff the current
time is strictly less than 15 seconds after the `send` call, and the
latched payload is cleared either way. -/
theorem send_grace_window (s : ClientState) (t0 now : Int)
    (d : List Nat) (u : String) (hd : d ≠ []) :
    ((heartbeatTick now (Client.send t0 d u s).1).1 = true ↔
        now < t0 + 15)
    ∧ (heartbeatTick now (Client.send t0 d u s).1).2.send_data = none := by
  have htr : truthyBytes (some d) = true := by
    simp [truthyBytes, hd]
  unfold Client.send Client.ping heartbeatTick
  dsimp only
  split
  · simp [htr, COMMAND_TIME]
  · simp [htr, COMMAND_TIME]

/-- C4 amended, witness: at time 3 — inside the window opened at time 0 —
the payload is written. -/
theorem send_grace_window_witness :
    (heartbeatTick 3
        (Client.send 0 [1] "u" ⟨0, false, false, none, 0, "x"⟩).1).1
        = true :=
  (send_grace_window ⟨0, false, false, none, 0, "x"⟩ 0 3 [1] "u"
      (by decide)).1.mpr (by decide)

/-- C7: every call to `send` sets the idle deadline to at least
`now + 120` seconds (`ACTIVE_TIME`), leaves the connection task running
(starting it if none was), and cancels the pending heartbeat sleep future
when one exists, interrupting an in-progress heartbeat wait. -/
theorem send_refreshes_keepalive (now : Int) (d : List Nat) (u : String)
    (s : ClientState) :
    now + 120 ≤ ((Client.send now d u s).1).ping_time
    ∧ ((Client.send now d u s).1).ping_task = true
    ∧ (s.ping_future = true → (Client.send now d u s).2 = true) := by
  unfold Client.send Client.ping
  dsimp only
  split
  · exact ⟨le_refl _, rfl, fun _ => rfl⟩
  · rename_i h
    refine ⟨le_refl _, rfl, fun hf => absurd hf (by simpa using h)⟩

/-- C7 witness: with a pending sleep future, a concrete `send` call
reports the future cancelled. -/
theorem send_refreshes_keepalive_witness :
    (Client.send 0 [1] "u" ⟨0, false, true, none, 0, "x"⟩).2 = true :=
  (send_refreshes_keepalive 0 [1] "u" ⟨0, false, true, none, 0, "x"⟩).2.2 rfl

/-- C3: for a device with encryption key `0x12` whose catalog holds the
single product "Espresso" (code `0x01`, no extra attributes), selecting
that product succeeds (current product set, overrides reset to the empty
map), and building the outbound command yields exactly 18 bytes with
byte 1 = `0x01`, byte 17 = `0x12`, and every other byte zero. -/
theorem espresso_command_end_to_end :
    select_product [espressoProduct] "Espresso" initDevState [] =
        .ok (⟨some espressoProduct, some []⟩, [])
    ∧ command espressoProduct [] 0x12 =
        .ok [0, 1, 0, 0, 0, 0, 0, 0, 0, 0, 0, 0, 0, 0, 0, 0, 0, 0x12]
    ∧ ([0, 1, 0, 0, 0, 0, 0, 0, 0, 0, 0, 0, 0, 0, 0, 0, 0, 0x12] :
        List Nat).length = 18
    ∧ ([0, 1, 0, 0, 0, 0, 0, 0, 0, 0, 0, 0, 0, 0, 0, 0, 0, 0x12] :
        List Nat).getD 1 0 = 0x01
    ∧ ([0, 1, 0, 0, 0, 0, 0, 0, 0, 0, 0, 0, 0, 0, 0, 0, 0, 0x12] :
        List Nat).getD 17 0 = 0x12 := by
  refine ⟨by decide, by decide, by decide, by decide, by decide⟩

/-- C5 counterexample: `select_product` with a name matching no product
does not fail silently — the un-defaulted `next(...)` raises
`StopIteration`. -/
theorem select_product_unmatched_counterexample :
    select_product [espressoProduct] "Latte" initDevState [] =
        .error () := by
  decide

/-- C5 amended: `select_product` with an unmatched name raises an error
(`StopIteration`) and leaves the product selection and override map
unchanged (the raising expression precedes both assignments); with a
matching name it sets the current product, resets the overrides to the
empty map, and notifies every product-change observer in order. -/
theorem select_product_behavior (products : List Product) (name : String)
    (st : DevState) (hs : List Nat) :
    (products.find? (fun p => p.name == name) = none →
        select_product products name st hs = .error ())
    ∧ (∀ p, products.find? (fun p => p.name == name) = some p →
        select_product products name st hs = .ok (⟨some p, some []⟩, hs)) := by
  constructor
  · intro h
    simp [select_product, h]
  · intro p h
    simp [select_product, h]

/-- C5 amended, witness: a matching name selects the product, resets the
override map and reports the notified handlers. -/
theorem select_product_behavior_witness :
    select_product [espressoProduct] "Espresso" initDevState [3, 4] =
        .ok (⟨some espressoProduct, some []⟩, [3, 4]) :=
  (select_product_behavior [espressoProduct] "Espresso" initDevState
      [3, 4]).2 espressoProduct (by decide)

/-- C10 counterexample: calling `set_value` via `select_option` before any
product has been selected does not raise — `select_option` short-circuits
on `self.product and ...` and returns `None` without ever reaching
`set_value`. -/
theorem select_option_before_selection_counterexample :
    select_option [] initDevState [] "coffee_strength" "Strong" =
        .ok (initDevState, []) := by
  decide

/-- C10 amended: `self.values` is initialized to `None` (not an empty map)
and only becomes a map on the first successful product selection; a direct
`set_value` call before any selection raises an unhandled `TypeError`,
while `select_option` with a non-product attribute before any selection
returns `None` silently (its `self.product and ...` guard short-circuits
before `set_value` is reached). -/
theorem overrides_before_selection (attr o : String) (v : Nat)
    (products : List Product) (hs : List Nat)
    (name : String) (st : DevState) (p : Product)
    (hfound : products.find? (fun q => q.name == name) = some p) :
    initDevState.values = none
    ∧ set_value initDevState attr v = .error ()
    ∧ (attr ≠ "product" →
        select_option products initDevState hs attr o = .ok (initDevState, []))
    ∧ (select_product products name st hs).map (fun r => r.1.values) =
        .ok (some []) := by
  refine ⟨rfl, rfl, ?_, ?_⟩
  · intro hne
    simp [select_option, initDevState, hne]
  · simp [select_product, hfound, Except.map]

/-- C10 amended, witness: on a fresh device a direct `set_value` raises
while `select_option` returns silently; after a successful selection the
override map exists and is empty. -/
theorem overrides_before_selection_witness :
    set_value initDevState "coffee_strength" 3 = .error ()
    ∧ select_option [espressoProduct] initDevState [] "coffee_strength"
        "Strong" = .ok (initDevState, [])
    ∧ (select_product [espressoProduct] "Espresso" initDevState []).map
        (fun r => r.1.values) = .ok (some []) := by
  have h := overrides_before_selection "coffee_strength" "Strong" 3
      [espressoProduct] [] "Espresso" initDevState espressoProduct
      (by decide)
  exact ⟨h.2.1, h.2.2.1 (by decide), h.2.2.2⟩

/-- C6: catalog resolution raises `EmptyModel` exactly when the model id —
the little-endian 16-bit integer at advertisement bytes 4-5 — is zero, and
raises `UnsupportedModel` carrying the model id when it is nonzero but no
line of the bundled index matches it. -/
theorem get_machine_model_gate (index : List String) (adv : List Nat) :
    (get_machine index adv = .emptyModel ↔ modelIdOf adv = 0)
    ∧ (modelIdOf adv ≠ 0 →
        (∀ line ∈ index,
            strStartsWith line (toString (modelIdOf adv)) = false) →
        get_machine index adv = .unsupportedModel (modelIdOf adv)) := by
  constructor
  · unfold get_machine
    constructor
    · intro h
      by_contra hne
      rw [if_neg hne] at h
      rcases hfind : index.find?
          (fun line => strStartsWith line (toString (modelIdOf adv))) with _ | line
      · rw [hfind] at h; exact GetMachineResult.noConfusion h
      · rw [hfind] at h; exact GetMachineResult.noConfusion h
    · intro h
      rw [if_pos h]
  · intro hne hnone
    unfold get_machine
    rw [if_neg hne]
    have : index.find?
        (fun line => strStartsWith line (toString (modelIdOf adv))) = none := by
      rw [List.find?_eq_none]
      intro line hmem
      simp [hnone line hmem]
    rw [this]

/-- C6 witness: advertisement `[18,0,0,0,42,0]` carries model id 42; with
an index whose only line is for model 500 the resolution raises
`UnsupportedModel 42`. -/
theorem get_machine_model_gate_witness :
    get_machine ["500;EF;TYPE"] [18, 0, 0, 0, 42, 0] =
        .unsupportedModel 42 :=
  (get_machine_model_gate ["500;EF;TYPE"] [18, 0, 0, 0, 42, 0]).2
    (by decide) (by decide)

lemma foldl_if_append {α β : Type} (p : α → Bool) (g : α → β) :
    ∀ (l : List α) (acc : List β),
      l.foldl (fun acc i => if p i then acc ++ [g i] else acc) acc
        = acc ++ (l.filter p).map g := by
  intro l
  induction l with
  | nil => intro acc; simp
  | cons x xs ih =>
    intro acc
    by_cases h : p x
    · simp [List.foldl_cons, List.filter_cons, h, ih]
    · simp [List.foldl_cons, List.filter_cons, h, ih]

lemma decodeAlerts_characterization (alerts : List (Nat × String))
    (data : List Nat) (i : Nat) (s : String) :
    (i, s) ∈ decodeAlerts alerts data ↔
      i < (data.length - 1) * 8 ∧ bitActive data i = true
        ∧ s = alertLabel alerts i := by
  unfold decodeAlerts
  rw [foldl_if_append]
  simp only [List.nil_append, List.mem_map, List.mem_filter, List.mem_range]
  constructor
  · rintro ⟨j, ⟨hj, hbit⟩, heq⟩
    obtain ⟨rfl, rfl⟩ := Prod.mk.injEq .. ▸ heq
    exact ⟨hj, hbit, rfl⟩
  · rintro ⟨hi, hbit, rfl⟩
    exact ⟨i, ⟨hi, hbit⟩, rfl⟩

/-- C2: `read_alerts` decodes a status frame of length `L ≥ 1` MSB-first
relative to byte 1: bit `i < 8*(L-1)` is active iff
`(data[1 + (i >> 3)] >> (7 - (i & 7))) & 1 = 1`; in particular
`[0x00, 0b10000000]` yields exactly bit 0 and `[0x00, 0x00, 0b00000001]`
yields exactly bit 15, and an active bit missing from the alert catalog is
mapped to the synthesized label `"unknown alert {i}"`. -/
theorem read_alerts_bit_decoding :
    (∀ (alerts : List (Nat × String)) (data : List Nat) (i : Nat),
        1 ≤ data.length → i < 8 * (data.length - 1) →
        ((∃ s, (i, s) ∈ decodeAlerts alerts data) ↔
          (data.getD (1 + (i >>> 3)) 0 >>> (7 - (i &&& 7))) &&& 1 = 1))
    ∧ (∀ alerts, (decodeAlerts alerts [0, 128]).map Prod.fst = [0])
    ∧ (∀ alerts, (decodeAlerts alerts [0, 0, 1]).map Prod.fst = [15])
    ∧ (∀ alerts data i s, (i, s) ∈ decodeAlerts alerts data →
        alerts.lookup i = none → s = "unknown alert " ++ toString i) := by
  refine ⟨?_, ?_, ?_, ?_⟩
  · intro alerts data i _ hi
    rw [Nat.mul_comm] at hi
    constructor
    · rintro ⟨s, hs⟩
      have h := (decodeAlerts_characterization alerts data i s).mp hs
      have hb := h.2.1
      unfold bitActive at hb
      rw [Nat.add_comm] at hb
      exact of_decide_eq_true hb
    · intro hbit
      refine ⟨alertLabel alerts i, ?_⟩
      refine (decodeAlerts_characterization alerts data i _).mpr ⟨hi, ?_, rfl⟩
      unfold bitActive
      rw [Nat.add_comm]
      exact decide_eq_true hbit
  · intro alerts; rfl
  · intro alerts; rfl
  · intro alerts data i s hmem hnone
    have h := (decodeAlerts_characterization alerts data i s).mp hmem
    rw [h.2.2]
    unfold alertLabel
    rw [hnone]

/-- C2 witness: in the frame `[0x00, 0b10000000]` bit 0 is decoded as
active. -/
theorem read_alerts_bit_decoding_witness :
    ∃ s, (0, s) ∈ decodeAlerts [] [0, 128] :=
  (read_alerts_bit_decoding.1 [] [0, 128] 0 (by decide) (by decide)).mpr
    (by decide)

lemma getD_set_ite (v : Nat) :
    ∀ (l : List Nat) (p i : Nat),
      (l.set p v).getD i 0 =
        if i = p ∧ p < l.length then v else l.getD i 0 := by
  intro l
  induction l with
  | nil => intro p i; simp
  | cons a as ih =>
    intro p i
    cases p with
    | zero =>
      cases i with
      | zero => simp
      | succ j => simp
    | succ q =>
      cases i with
      | zero => simp
      | succ j =>
        have := ih q j
        simp only [List.set, List.getD, List.get?, List.length_cons]
        simpa [Nat.succ_lt_succ_iff] using this

lemma eqExcept_rfl (off : Nat) (d : List Nat) : EqExcept off d d :=
  ⟨rfl, fun _ _ => rfl⟩

lemma eqExcept_set_same {off : Nat} {d1 d2 : List Nat} (pos v : Nat)
    (h : EqExcept off d1 d2) :
    EqExcept off (d1.set pos v) (d2.set pos v) := by
  obtain ⟨hlen, hget⟩ := h
  refine ⟨by simp [hlen], fun i hi => ?_⟩
  rw [getD_set_ite, getD_set_ite, hlen]
  by_cases hc : i = pos ∧ pos < d2.length
  · rw [if_pos hc, if_pos hc]
  · rw [if_neg hc, if_neg hc]
    exact hget i hi

lemma eqExcept_set_at {off : Nat} {d1 d2 : List Nat} (v1 v2 : Nat)
    (h : EqExcept off d1 d2) :
    EqExcept off (d1.set off v1) (d2.set off v2) := by
  obtain ⟨hlen, hget⟩ := h
  refine ⟨by simp [hlen], fun i hi => ?_⟩
  rw [getD_set_ite, getD_set_ite]
  rw [if_neg (fun hc => hi hc.1), if_neg (fun hc => hi hc.1)]
  exact hget i hi

lemma writeAttr_pair_step (p : Product) (attr : String) (a : ProdAttribute)
    (v : Nat) (x : String) (d1 d2 r1 r2 : List Nat)
    (hlook : p.attrs.lookup attr = some a)
    (h : EqExcept a.argument d1 d2)
    (h1 : writeAttr [(attr, v)] p (.ok d1) x = .ok r1)
    (h2 : writeAttr [] p (.ok d2) x = .ok r2) :
    EqExcept a.argument r1 r2 := by
  rcases hax : p.attrs.lookup x with _ | ax
  · simp only [writeAttr, hax] at h1 h2
    cases h1; cases h2
    exact h
  · by_cases hxa : x = attr
    · subst hxa
      rw [hlook] at hax
      obtain rfl : ax = a := (Option.some.inj hax).symm
      have hv1 : List.lookup x [(x, v)] = some v := by
        simp [List.lookup]
      simp only [writeAttr, hlook, hv1, Option.getD_some, List.lookup_nil,
        Option.getD_none] at h1 h2
      repeat' split at h1
      all_goals first
      | exact Except.noConfusion h1
      | (cases h1
         repeat' split at h2
         all_goals first
         | exact Except.noConfusion h2
         | (cases h2
            exact eqExcept_set_at _ _ h))
    · have hv1 : List.lookup x [(attr, v)] = none := by
        simp [List.lookup, beq_eq_false_iff_ne.mpr hxa]
      simp only [writeAttr, hax, hv1, Option.getD_none,
        List.lookup_nil] at h1 h2
      repeat' split at h1
      all_goals first
      | exact Except.noConfusion h1
      | (cases h1
         repeat' split at h2
         all_goals first
         | exact Except.noConfusion h2
         | (cases h2
            first
            | exact eqExcept_set_at _ _ h
            | exact eqExcept_set_same _ _ h
            | contradiction))

lemma foldl_writeAttr_error (vals : List (String × Nat)) (p : Product) :
    ∀ (L : List String) (e : Unit),
      L.foldl (writeAttr vals p) (.error e) = .error e := by
  intro L
  induction L with
  | nil => intro e; rfl
  | cons x xs ih => intro e; exact ih e

lemma foldl_writeAttr_pair (p : Product) (attr : String)
    (a : ProdAttribute) (v : Nat)
    (hlook : p.attrs.lookup attr = some a) :
    ∀ (L : List String) (d1 d2 : List Nat), EqExcept a.argument d1 d2 →
      ∀ (b1 b2 : List Nat),
        L.foldl (writeAttr [(attr, v)] p) (.ok d1) = .ok b1 →
        L.foldl (writeAttr [] p) (.ok d2) = .ok b2 →
        EqExcept a.argument b1 b2 := by
  intro L
  induction L with
  | nil =>
    intro d1 d2 h b1 b2 h1 h2
    cases h1; cases h2
    exact h
  | cons x xs ih =>
    intro d1 d2 h b1 b2 h1 h2
    rw [List.foldl_cons] at h1 h2
    rcases e1 : writeAttr [(attr, v)] p (.ok d1) x with e | r1
    · rw [e1, foldl_writeAttr_error] at h1
      exact Except.noConfusion h1
    · rcases e2 : writeAttr [] p (.ok d2) x with e | r2
      · rw [e2, foldl_writeAttr_error] at h2
        exact Except.noConfusion h2
      · rw [e1] at h1
        rw [e2] at h2
        exact ih r1 r2 (writeAttr_pair_step p attr a v x d1 d2 r1 r2
          hlook h e1 e2) b1 b2 h1 h2

/-- C9: for every product and every attribute defined in it, building the
command with a single user override for that attribute yields a buffer
that can differ from the no-override command only at the byte at that
attribute's declared offset (`@Argument`); all other bytes are equal and
the lengths agree. -/
theorem command_override_locality (p : Product) (attr : String)
    (a : ProdAttribute) (v key : Nat) (b1 b2 : List Nat)
    (hlook : p.attrs.lookup attr = some a)
    (h1 : command p [(attr, v)] key = .ok b1)
    (h2 : command p [] key = .ok b2) :
    b1.length = b2.length
    ∧ ∀ i, i ≠ a.argument → b1.getD i 0 = b2.getD i 0 := by
  unfold command at h1 h2
  by_cases hcode : p.code ≤ 255
  · rw [if_pos hcode] at h1 h2
    rcases e1 : (SELECTS ++ NUMBERS).foldl (writeAttr [(attr, v)] p)
        (.ok ((List.replicate 18 0).set 1 p.code)) with e | c1
    · rw [e1] at h1
      exact Except.noConfusion h1
    · rcases e2 : (SELECTS ++ NUMBERS).foldl (writeAttr [] p)
          (.ok ((List.replicate 18 0).set 1 p.code)) with e | c2
      · rw [e2] at h2
        exact Except.noConfusion h2
      · rw [e1] at h1
        rw [e2] at h2
        dsimp only at h1 h2
        by_cases hkey : key ≤ 255
        · rw [if_pos hkey] at h1 h2
          cases h1; cases h2
          have hc := foldl_writeAttr_pair p attr a v hlook
            (SELECTS ++ NUMBERS) _ _
            (eqExcept_rfl a.argument ((List.replicate 18 0).set 1 p.code))
            c1 c2 e1 e2
          exact eqExcept_set_same 17 key hc
        · rw [if_neg hkey] at h1
          exact Except.noConfusion h1
  · rw [if_neg hcode] at h1
    exact Except.noConfusion h1

/-- C9 witness: on a concrete product with one numeric attribute at offset
4, the override command and the default command agree at byte 0. -/
theorem command_override_locality_witness :
    ([0, 1, 0, 0, 15, 0, 0, 0, 0, 0, 0, 0, 0, 0, 0, 0, 0, 18] :
        List Nat).getD 0 0 =
    ([0, 1, 0, 0, 20, 0, 0, 0, 0, 0, 0, 0, 0, 0, 0, 0, 0, 18] :
        List Nat).getD 0 0 :=
  (command_override_locality wateryProduct "water_amount"
      ⟨true, 200, 0, 10, 4, []⟩ 150 18
      [0, 1, 0, 0, 15, 0, 0, 0, 0, 0, 0, 0, 0, 0, 0, 0, 0, 18]
      [0, 1, 0, 0, 20, 0, 0, 0, 0, 0, 0, 0, 0, 0, 0, 0, 0, 18]
      (by decide) (by decide) (by decide)).2 0 (by decide)

lemma percentsLoop_bad_byte :
    ∀ (ns : List String) (vs : List Nat) (acc : List (String × Nat))
      (i : Nat), i < ns.length → i < vs.length →
      100 < vs.getD i 0 → vs.getD i 0 < 255 →
      percentsLoop ns vs acc = .ok none := by
  intro ns
  induction ns with
  | nil => intro vs acc i hi _ _ _; exact absurd hi (by simp)
  | cons n ns ih =>
    intro vs acc i hi hv hlo hhi
    cases vs with
    | nil => exact absurd hv (by simp)
    | cons v vs =>
      cases i with
      | zero =>
        rw [List.getD_cons_zero] at hlo hhi
        have hb : 100 < v ∧ v < 255 := ⟨hlo, hhi⟩
        simp only [percentsLoop, if_pos hb]
      | succ j =>
        rw [List.getD_cons_succ] at hlo hhi
        by_cases hb : 100 < v ∧ v < 255
        · simp only [percentsLoop, if_pos hb]
        · simp only [percentsLoop, if_neg hb]
          exact ih vs _ j (by simpa using hi) (by simpa using hv) hlo hhi

lemma percentsLoop_success :
    ∀ (ns : List String) (vs : List Nat) (acc : List (String × Nat))
      (m : List (String × Nat)),
      percentsLoop ns vs acc = .ok (some m) →
      ns.length ≤ vs.length
      ∧ ∀ i, i < ns.length →
          ¬(100 < vs.getD i 0 ∧ vs.getD i 0 < 255) := by
  intro ns
  induction ns with
  | nil =>
    intro vs acc m _
    exact ⟨Nat.zero_le _, fun i hi => absurd hi (by simp)⟩
  | cons n ns ih =>
    intro vs acc m h
    cases vs with
    | nil => exact Except.noConfusion h
    | cons v vs =>
      by_cases hb : 100 < v ∧ v < 255
      · simp only [percentsLoop, if_pos hb] at h
        exact absurd (Except.ok.inj h) (by simp)
      · simp only [percentsLoop, if_neg hb] at h
        obtain ⟨hlen, hall⟩ := ih vs _ m h
        refine ⟨by simpa using Nat.succ_le_succ hlen, fun i hi => ?_⟩
        cases i with
        | zero => simpa using hb
        | succ j => simpa using hall j (by simpa using hi)

/-- C1: `read_statistics` never partially overwrites the snapshot.  If any
of the three polling reads returns no data, or the decoded total count is
0 or above 1,000,000, or the maintenance-counter sum exceeds 5 times the
total, or a checked maintenance-percent byte lies strictly between 100 and
255, the whole update is aborted and the prior snapshot is returned
unchanged; and the snapshot is replaced (update flag `true`) only when all
three reads succeed and every check passes. -/
theorem read_statistics_snapshot_integrity (prior : Statistics)
    (products : List Product) (mcNames mpNames : List String)
    (r1 r2 r3 : Option (List Nat)) :
    (r1 = none →
      read_statistics prior products mcNames mpNames r1 r2 r3 =
        .ok (prior, false))
    ∧ (∀ d1 t, r1 = some d1 → (productCountsArray d1).head? = some t →
        (t = 0 ∨ t > 1000000) →
        read_statistics prior products mcNames mpNames r1 r2 r3 =
          .ok (prior, false))
    ∧ (∀ d1 t, r1 = some d1 → (productCountsArray d1).head? = some t →
        ¬(t = 0 ∨ t > 1000000) → r2 = none →
        read_statistics prior products mcNames mpNames r1 r2 r3 =
          .ok (prior, false))
    ∧ (∀ d1 t d2, r1 = some d1 → (productCountsArray d1).head? = some t →
        ¬(t = 0 ∨ t > 1000000) → r2 = some d2 →
        (chunks2 d2).sum > t * 5 →
        read_statistics prior products mcNames mpNames r1 r2 r3 =
          .ok (prior, false))
    ∧ (∀ d1 t d2, r1 = some d1 → (productCountsArray d1).head? = some t →
        ¬(t = 0 ∨ t > 1000000) → r2 = some d2 →
        ¬((chunks2 d2).sum > t * 5) → r3 = none →
        read_statistics prior products mcNames mpNames r1 r2 r3 =
          .ok (prior, false))
    ∧ (∀ d1 t d2 d3 i, r1 = some d1 →
        (productCountsArray d1).head? = some t →
        ¬(t = 0 ∨ t > 1000000) → r2 = some d2 →
        ¬((chunks2 d2).sum > t * 5) → r3 = some d3 →
        i < mpNames.length → i < d3.length →
        100 < d3.getD i 0 → d3.getD i 0 < 255 →
        read_statistics prior products mcNames mpNames r1 r2 r3 =
          .ok (prior, false))
    ∧ (∀ s, read_statistics prior products mcNames mpNames r1 r2 r3 =
          .ok (s, true) →
        ∃ d1 t d2 d3, r1 = some d1
          ∧ (productCountsArray d1).head? = some t
          ∧ t ≠ 0 ∧ t ≤ 1000000
          ∧ r2 = some d2 ∧ (chunks2 d2).sum ≤ t * 5
          ∧ r3 = some d3 ∧ mpNames.length ≤ d3.length
          ∧ ∀ i, i < mpNames.length →
              ¬(100 < d3.getD i 0 ∧ d3.getD i 0 < 255)) := by
  refine ⟨?_, ?_, ?_, ?_, ?_, ?_, ?_⟩
  · intro h
    subst h
    rfl
  · intro d1 t h1 ht hbad
    subst h1
    simp only [read_statistics, ht]
    rw [if_pos hbad]
  · intro d1 t h1 ht hgood h2
    subst h1
    subst h2
    simp only [read_statistics, ht]
    rw [if_neg hgood]
  · intro d1 t d2 h1 ht hgood h2 hsum
    subst h1
    subst h2
    simp only [read_statistics, ht]
    rw [if_neg hgood, if_pos hsum]
  · intro d1 t d2 h1 ht hgood h2 hsum h3
    subst h1
    subst h2
    subst h3
    simp only [read_statistics, ht]
    rw [if_neg hgood, if_neg hsum]
  · intro d1 t d2 d3 i h1 ht hgood h2 hsum h3 hi hlen hlo hhi
    subst h1
    subst h2
    subst h3
    simp only [read_statistics, ht]
    rw [if_neg hgood, if_neg hsum,
      percentsLoop_bad_byte mpNames d3 [] i hi hlen hlo hhi]
  · intro s h
    rcases r1 with _ | d1
    · have h2 := congrArg Prod.snd (Except.ok.inj h)
      simp at h2
    · simp only [read_statistics] at h
      rcases ht : (productCountsArray d1).head? with _ | t
      · rw [ht] at h
        exact Except.noConfusion h
      · rw [ht] at h
        dsimp only at h
        by_cases hbad : t = 0 ∨ t > 1000000
        · rw [if_pos hbad] at h
          have h2 := congrArg Prod.snd (Except.ok.inj h)
          simp at h2
        · rw [if_neg hbad] at h
          rcases r2 with _ | d2
          · have h2 := congrArg Prod.snd (Except.ok.inj h)
            simp at h2
          · dsimp only at h
            by_cases hsum : (chunks2 d2).sum > t * 5
            · rw [if_pos hsum] at h
              have h2 := congrArg Prod.snd (Except.ok.inj h)
              simp at h2
            · rw [if_neg hsum] at h
              rcases r3 with _ | d3
              · have h2 := congrArg Prod.snd (Except.ok.inj h)
                simp at h2
              · dsimp only at h
                rcases hp : percentsLoop mpNames d3 [] with e | om
                · rw [hp] at h
                  exact Except.noConfusion h
                · rcases om with _ | m
                  · rw [hp] at h
                    have h2 := congrArg Prod.snd (Except.ok.inj h)
                    simp at h2
                  · obtain ⟨hlen, hall⟩ :=
                      percentsLoop_success mpNames d3 [] m hp
                    push_neg at hbad
                    refine ⟨d1, t, d2, d3, rfl, ht, hbad.1, hbad.2, rfl,
                      Nat.le_of_not_lt hsum, rfl, hlen, hall⟩

/-- C1 witness: when the first polling read returns no data the prior
snapshot is returned unchanged. -/
theorem read_statistics_snapshot_integrity_witness :
    read_statistics initStatistics [] [] [] none none none =
      .ok (initStatistics, false) :=
  (read_statistics_snapshot_integrity initStatistics [] [] []
      none none none).1 rfl

end Jura
